import Mathlib

/-!
Verification of the apraxin pavilion-map client against its specification.

The JavaScript source is shallowly embedded: strings handled character by
character become `List Char`, JS numbers used as timestamps become `Int`,
percentage coordinates become `Rat`, fallible functions return `Except`,
and the module-level mutable state (`DataState`, `localStorage`, the
service-worker cache) is passed explicitly.
-/

namespace Apraxin

/-! ## Phone validation and formatting (auth module) -/

/-- Embeds `String.prototype.trim` on a character list: whitespace is removed
from both ends. -/
def trimChars (l : List Char) : List Char :=
  ((l.dropWhile Char.isWhitespace).reverse.dropWhile Char.isWhitespace).reverse

/-- Embeds `validatePhoneNumber`: the trimmed input must match the regular
expression for a plus sign, the digit seven, then exactly ten digits and the
end of the string. -/
def validatePhoneNumber (phone : List Char) : Bool :=
  match trimChars phone with
  | c1 :: c2 :: rest =>
      c1 == '+' && c2 == '7' && rest.length == 10 && rest.all Char.isDigit
  | _ => false

/-- The digit characters of the input, embedding `phone.replace(/\D/g, "")`. -/
def digitsOnly (phone : List Char) : List Char :=
  phone.filter Char.isDigit

/-- Embeds the normalisation step of `formatPhoneNumber`: a leading digit
eight is replaced by seven. -/
def normalizePhone (phone : List Char) : List Char :=
  match digitsOnly phone with
  | '8' :: t => '7' :: t
  | l => l

/-- Embeds `formatPhoneNumber`: throws unless the normalised digit string has
exactly eleven digits, otherwise prepends a plus sign. -/
def formatPhoneNumber (phone : List Char) : Except String (List Char) :=
  let normalized := normalizePhone phone
  if normalized.length ≠ 11 then
    .error "phone must contain 11 digits"
  else
    .ok ('+' :: normalized)

/-! ## Tenant whitelist lookup (auth module) -/

/-- A row of the tenants whitelist table. -/
structure Tenant where
  id : String
  name : String
  phone : List Char
  approved : Bool
deriving DecidableEq, Repr

/-- Embeds `checkPhone`: the phone is validated, the table is filtered by
exact phone equality (the REST query `phone=eq.`), and the first returned row
is accepted only when its `approved` flag is set. An invalid format throws. -/
def checkPhone (table : List Tenant) (phone : List Char) :
    Except String (Option Tenant) :=
  if validatePhoneNumber phone then
    match table.filter (fun t => t.phone == phone) with
    | [] => .ok none
    | t :: _ => if t.approved then .ok (some t) else .ok none
  else
    .error "invalid phone format"

/-! ## Pavilion records and the floor-plan hit test -/

/-- Stored percentage coordinates of a pavilion; a missing component is read
as zero by the hit test (the JS `coordinates.x || 0`). -/
structure Coord where
  x : Option Rat
  y : Option Rat
deriving DecidableEq, Repr

/-- An embedded discount sub-record on a pavilion. -/
structure Discount where
  id : String
  payload : String
  created_at : String
deriving DecidableEq, Repr

/-- A pavilion row. `discounts` is the embedded array field; it may be absent. -/
structure Pavilion where
  id : String
  tenant_id : String
  name : String
  coordinates : Option Coord
  discounts : Option (List Discount)
  updated_at : String
deriving DecidableEq, Repr

/-- The fixed hit-test tolerance of `findPavilionAtPoint`: five percent. -/
def tolerance : Rat := 5

/-- The inner check of `findPavilionAtPoint`: a pavilion with no coordinates
is skipped; otherwise both components, defaulted to zero, must be strictly
within the tolerance of the click point. -/
def hitsPoint (xPercent yPercent : Rat) (p : Pavilion) : Bool :=
  match p.coordinates with
  | none => false
  | some c =>
      decide (|c.x.getD 0 - xPercent| < tolerance) &&
      decide (|c.y.getD 0 - yPercent| < tolerance)

/-- Embeds `findPavilionAtPoint`: a linear scan that returns the first
pavilion whose stored coordinates are within the tolerance of the click. -/
def findPavilionAtPoint (pavilionsList : List Pavilion)
    (xPercent yPercent : Rat) : Option Pavilion :=
  pavilionsList.find? (hitsPoint xPercent yPercent)

/-! ## localStorage cache (data module)

`localStorage` is a key-value map from strings; it is embedded as an
association list with shadowing-free update (`setItem` removes any previous
binding before inserting). Parsed cache entries are typed rather than routed
through JSON text: serialisation is the identity in this model. -/

/-- A parsed cache entry: the stored value together with its write time. -/
structure CacheEntry (V : Type) where
  value : V
  timestamp : Int
deriving DecidableEq

/-- The embedded `localStorage`, specialised to entries of type `V`. -/
abbrev Store (V : Type) := List (String × CacheEntry V)

/-- The `DataConfig.CACHE_PREFIX` constant `aprashka_cache_`. -/
def cachePrefixStr : String := "aprashka_cache_"

/-- The `DataConfig.CACHE_TIMEOUT` constant: one hour in milliseconds. -/
def CACHE_TIMEOUT : Int := 60 * 60 * 1000

/-- Embeds `localStorage.getItem`. -/
def lookupItem {α : Type} (s : List (String × α)) (k : String) : Option α :=
  (s.find? (fun p => p.1 == k)).map (fun p => p.2)

/-- Embeds `localStorage.removeItem`. -/
def removeItem {α : Type} (s : List (String × α)) (k : String) :
    List (String × α) :=
  s.filter (fun p => !(p.1 == k))

/-- Embeds `localStorage.setItem`: the binding for `k` is overwritten. -/
def setItem {α : Type} (s : List (String × α)) (k : String) (v : α) :
    List (String × α) :=
  (k, v) :: removeItem s k

/-- Embeds `getCacheData`: a missing entry yields null; an entry with a
truthy timestamp older than `CACHE_TIMEOUT` is removed and yields null;
otherwise the stored value is returned. `now` stands for `Date.now()`. -/
def getCacheData {V : Type} (now : Int) (key : String) (s : Store V) :
    Option V × Store V :=
  let cacheKey := cachePrefixStr ++ key
  match lookupItem s cacheKey with
  | none => (none, s)
  | some data =>
      if data.timestamp ≠ 0 ∧ now - data.timestamp > CACHE_TIMEOUT then
        (none, removeItem s cacheKey)
      else
        (some data.value, s)

/-- Embeds `setCacheData`: stores the value with the current time. -/
def setCacheData {V : Type} (key : String) (value : V) (now : Int)
    (s : Store V) : Store V :=
  setItem s (cachePrefixStr ++ key) ⟨value, now⟩

/-- Embeds `clearCacheData`. -/
def clearCacheData {V : Type} (key : String) (s : Store V) : Store V :=
  removeItem s (cachePrefixStr ++ key)

/-! ## Pavilion CRUD (data module)

The module state is `DataState.pavilions` (the in-memory list), the
`localStorage` cache, and the remote `pavilions` table reached over REST,
here a `db` list. REST write effects are tracked by a boolean `writeIssued`
component of each result. -/

/-- The mutable state the data module touches. -/
structure DataSt where
  db : List Pavilion
  pavilions : List Pavilion
  cache : Store (List Pavilion)
deriving DecidableEq

/-- Embeds `getPavilionById`: the in-memory list is consulted first, then
the REST query `id=eq.` against the table; a miss yields null. -/
def getPavilionById (st : DataSt) (id : String) : Option Pavilion :=
  match st.pavilions.find? (fun p => p.id == id) with
  | some p => some p
  | none => (st.db.filter (fun p => p.id == id)).head?

/-- The PATCH body sent by `updatePavilion`: the fields of `data` that the
claims exercise, each optional, mirroring a partial JS object. -/
structure UpdateData where
  name : Option String
  coordinates : Option Coord
  discounts : Option (List Discount)
deriving DecidableEq

/-- Applies a PATCH body to a row, embedding the PostgREST update together
with the spread `\x7b ...data, updated_at \x7d` built by `updatePavilion`. -/
def applyUpdate (p : Pavilion) (u : UpdateData) (now : String) : Pavilion :=
  { id := p.id
    tenant_id := p.tenant_id
    name := u.name.getD p.name
    coordinates := match u.coordinates with
      | some c => some c
      | none => p.coordinates
    discounts := match u.discounts with
      | some d => some d
      | none => p.discounts
    updated_at := now }

/-- Embeds the `findIndex` / assignment pair in `updatePavilion`: the first
list element with the given id is replaced, an absent id leaves the list. -/
def replaceFirst (l : List Pavilion) (id : String) (q : Pavilion) :
    List Pavilion :=
  match l with
  | [] => []
  | p :: rest => if p.id == id then q :: rest else p :: replaceFirst rest id q

/-- Embeds `updatePavilion`. `auth` is `window.Auth?.getCurrentTenant?.()`,
`now` the ISO timestamp. The result carries the returned value or error, the
new state, and whether a REST write (the PATCH) was issued. -/
def updatePavilion (auth : Option Tenant) (now : String) (id : String)
    (u : UpdateData) (st : DataSt) : Except String Pavilion × DataSt × Bool :=
  match auth with
  | none => (.error "auth required to update pavilion", st, false)
  | some currentTenant =>
      match getPavilionById st id with
      | none => (.error "pavilion not found", st, false)
      | some pavilion =>
          if pavilion.tenant_id ≠ currentTenant.id then
            (.error "no rights to edit this pavilion", st, false)
          else
            let db' := st.db.map
              (fun p => if p.id == id then applyUpdate p u now else p)
            match (db'.filter (fun p => p.id == id)).head? with
            | some p0 =>
                (.ok p0,
                 { db := db'
                   pavilions := replaceFirst st.pavilions id p0
                   cache := clearCacheData "pavilions" st.cache },
                 true)
            | none => (.error "update failed", { st with db := db' }, true)

/-- Embeds `deletePavilion`: after the same three checks, the row is removed
from the table and from the in-memory list and the cache entry cleared. -/
def deletePavilion (auth : Option Tenant) (id : String) (st : DataSt) :
    Except String Bool × DataSt × Bool :=
  match auth with
  | none => (.error "auth required to delete pavilion", st, false)
  | some currentTenant =>
      match getPavilionById st id with
      | none => (.error "pavilion not found", st, false)
      | some pavilion =>
          if pavilion.tenant_id ≠ currentTenant.id then
            (.error "no rights to delete this pavilion", st, false)
          else
            (.ok true,
             { db := st.db.filter (fun p => !(p.id == id))
               pavilions := st.pavilions.filter (fun p => !(p.id == id))
               cache := clearCacheData "pavilions" st.cache },
             true)

/-- Embeds `addDiscount`: after the three ownership checks a fresh discount
(`newId` stands for `generateId()`, `now` for the ISO time) is appended to
the pavilion's discounts array, `[]` when absent, and the pavilion is
written back through `updatePavilion` with only `discounts` in the body. -/
def addDiscount (auth : Option Tenant) (now newId : String)
    (pavilionId : String) (payload : String) (st : DataSt) :
    Except String Pavilion × DataSt × Bool :=
  match auth with
  | none => (.error "auth required", st, false)
  | some currentTenant =>
      match getPavilionById st pavilionId with
      | none => (.error "pavilion not found", st, false)
      | some pavilion =>
          if pavilion.tenant_id ≠ currentTenant.id then
            (.error "no rights to add a discount", st, false)
          else
            let discounts := pavilion.discounts.getD []
            let newDiscount : Discount := ⟨newId, payload, now⟩
            updatePavilion auth now pavilionId
              ⟨none, none, some (discounts ++ [newDiscount])⟩ st

/-- Embeds `removeDiscount`: after the three ownership checks the entries
whose id equals `discountId` are filtered out and the pavilion written back
through `updatePavilion` with only `discounts` in the body. -/
def removeDiscount (auth : Option Tenant) (now : String)
    (pavilionId : String) (discountId : String) (st : DataSt) :
    Except String Pavilion × DataSt × Bool :=
  match auth with
  | none => (.error "auth required", st, false)
  | some currentTenant =>
      match getPavilionById st pavilionId with
      | none => (.error "pavilion not found", st, false)
      | some pavilion =>
          if pavilion.tenant_id ≠ currentTenant.id then
            (.error "no rights to remove a discount", st, false)
          else
            let discounts :=
              (pavilion.discounts.getD []).filter
                (fun d => !(d.id == discountId))
            updatePavilion auth now pavilionId ⟨none, none, some discounts⟩ st

/-- Embeds `getAllPavilions`. `net` stands for the REST GET of the whole
table, which may fail. The outer try/catch returns the in-memory list on
failure, so the `Except` in the result reflects the catch-all handler; the
boolean records whether the network request was issued. -/
def getAllPavilions (now : Int) (net : Except String (List Pavilion))
    (st : DataSt) : Except String (List Pavilion) × DataSt × Bool :=
  match getCacheData now "pavilions" st.cache with
  | (some cachedData, cache') =>
      (.ok cachedData, { st with pavilions := cachedData, cache := cache' },
       false)
  | (none, cache') =>
      match net with
      | .ok response =>
          (.ok response,
           { st with
             pavilions := response,
             cache := setCacheData "pavilions" response now cache' },
           true)
      | .error _ => (.ok st.pavilions, { st with cache := cache' }, true)

/-! ## Service worker (sw.js) -/

/-- The `CACHE_VERSION` constant. -/
def CACHE_VERSION : String := "v1"

/-- The `CACHE_NAME` constant, `apra-shka-` plus the version string. -/
def CACHE_NAME : String := "apra-shka-" ++ CACHE_VERSION

/-- The `CACHEABLE_EXTENSIONS` list of sw.js. -/
def CACHEABLE_EXTENSIONS : List String :=
  [".js", ".css", ".html", ".json", ".svg", ".png", ".jpg", ".jpeg",
   ".gif", ".webp", ".woff", ".woff2", ".ttf"]

/-- Embeds `String.prototype.endsWith` by character lists. -/
def strEndsWith (s suffix : String) : Bool :=
  suffix.toList.isSuffixOf s.toList

/-- Embeds `String.prototype.startsWith` by character lists. -/
def strStartsWith (s pre : String) : Bool :=
  pre.toList.isPrefixOf s.toList

/-- A fetch-event request: its method and the pathname of its URL. -/
structure Request where
  method : String
  pathname : String
deriving DecidableEq

/-- An HTTP response: its status and body. -/
structure Response where
  status : Nat
  body : String
deriving DecidableEq

/-- The `isStaticAsset` test of the fetch listener: the URL pathname ends
with one of the cacheable extensions. -/
def isStaticAsset (r : Request) : Bool :=
  CACHEABLE_EXTENSIONS.any (fun ext => strEndsWith r.pathname ext)

/-- The three ways the fetch listener can route a request. -/
inductive Strategy where
  | cacheFirst
  | networkFirst
  | passthrough
deriving DecidableEq

/-- Embeds the fetch listener's dispatch: non-GET requests are ignored,
static assets go cache-first, everything else network-first. -/
def chooseStrategy (r : Request) : Strategy :=
  if r.method ≠ "GET" then .passthrough
  else if isStaticAsset r then .cacheFirst
  else .networkFirst

/-- The service-worker cache for `CACHE_NAME`, an association list keyed by
request. -/
abbrev SWCache := List (Request × Response)

/-- Embeds `caches.match` restricted to the single named cache. -/
def cacheMatch (c : SWCache) (r : Request) : Option Response :=
  (c.find? (fun e => e.1 == r)).map (fun e => e.2)

/-- Embeds `cache.put`: the entry for the request is overwritten. -/
def cachePut (c : SWCache) (r : Request) (resp : Response) : SWCache :=
  (r, resp) :: c.filter (fun e => !(e.1 == r))

/-- The offline fallback response built in the catch handler of
`cacheFirstStrategy`. -/
def offlineResponse : Response :=
  ⟨503, "no connection and no cached data"⟩

/-- Embeds `cacheFirstStrategy`. `net` stands for `fetch(request)`. The
boolean in the result records whether the network was contacted; on a cache
hit the cached response is returned at once; a fetched response is stored
only when its status is 200; a failed fetch on a cache miss falls back to
the 503 offline response. -/
def cacheFirstStrategy (request : Request) (c : SWCache)
    (net : Except String Response) : Response × SWCache × Bool :=
  match cacheMatch c request with
  | some cachedResponse => (cachedResponse, c, false)
  | none =>
      match net with
      | .ok networkResponse =>
          if networkResponse.status == 200 then
            (networkResponse, cachePut c request networkResponse, true)
          else
            (networkResponse, c, true)
      | .error _ => (offlineResponse, c, true)

/-- The `isCacheStale` test of the activate listener: the name carries the
`apra-shka-` version prefix but is not the current cache name. -/
def isCacheStale (cacheName : String) : Bool :=
  strStartsWith cacheName "apra-shka-" && !(cacheName == CACHE_NAME)

/-- The caches the activate listener deletes. -/
def activateDeleted (cacheNames : List String) : List String :=
  cacheNames.filter isCacheStale

/-- The caches that survive activation. -/
def activateKept (cacheNames : List String) : List String :=
  cacheNames.filter (fun n => !(isCacheStale n))

/-! ## Helper lemmas -/

theorem dropWhile_eq_self_of_not (p : Char → Bool) (l : List Char)
    (h : ∀ c ∈ l, p c = false) : l.dropWhile p = l := by
  cases l with
  | nil => rfl
  | cons a l =>
      rw [List.dropWhile_cons, if_neg]
      simp [h a (List.mem_cons_self a l)]

theorem trimChars_eq_self (l : List Char)
    (h : ∀ c ∈ l, c.isWhitespace = false) : trimChars l = l := by
  unfold trimChars
  rw [dropWhile_eq_self_of_not _ _ h]
  rw [dropWhile_eq_self_of_not _ _ (fun c hc => h c (List.mem_reverse.mp hc))]
  exact List.reverse_reverse l

theorem isDigit_not_whitespace (c : Char) (h : c.isDigit = true) :
    c.isWhitespace = false := by
  by_contra hw
  have hw' : c.isWhitespace = true := by
    cases hws : c.isWhitespace with
    | true => rfl
    | false => exact absurd hws hw
  simp [Char.isWhitespace] at hw'
  rcases hw' with ((h1 | h1) | h1) | h1 <;> subst h1 <;> exact absurd h (by decide)

theorem digitsOnly_all_isDigit (phone : List Char) :
    ∀ c ∈ digitsOnly phone, c.isDigit = true := by
  intro c hc
  exact (List.mem_filter.mp hc).2

theorem normalizePhone_all_isDigit (phone : List Char) :
    ∀ c ∈ normalizePhone phone, c.isDigit = true := by
  unfold normalizePhone
  split
  · next t heq =>
      intro c hc
      cases hc with
      | head => decide
      | tail _ hmem =>
          exact digitsOnly_all_isDigit phone c (heq ▸ List.mem_cons_of_mem _ hmem)
  · next heq =>
      exact digitsOnly_all_isDigit phone

/-! ## Claim theorems -/

/-- C1: for a well-formed phone number, `checkPhone` hands back a tenant
record only when the whitelist table has a row with that exact phone and the
`approved` flag set; when no row matches, or the rows matching the number are
all unapproved, it returns null. -/
theorem checkPhone_whitelist_approved (table : List Tenant) (phone : List Char)
    (hv : validatePhoneNumber phone = true) :
    (∀ t, checkPhone table phone = .ok (some t) →
        t ∈ table ∧ t.phone = phone ∧ t.approved = true) ∧
    ((∀ t ∈ table, t.phone = phone → t.approved = false) →
        checkPhone table phone = .ok none) := by
  have hstep : checkPhone table phone =
      match table.filter (fun r => r.phone == phone) with
      | [] => .ok none
      | t :: _ => if t.approved then .ok (some t) else .ok none := by
    simp [checkPhone, hv]
  constructor
  · intro t ht
    rw [hstep] at ht
    cases hf : table.filter (fun r => r.phone == phone) with
    | nil => rw [hf] at ht; exact absurd ht (by simp)
    | cons t0 rest =>
        rw [hf] at ht
        have ht' : (if t0.approved = true then Except.ok (some t0)
            else Except.ok (none : Option Tenant)) = Except.ok (some t) := ht
        have hm : t0 ∈ table.filter (fun r => r.phone == phone) := by
          rw [hf]; exact List.mem_cons_self t0 rest
        have hmem := List.mem_filter.mp hm
        have hph : t0.phone = phone := by simpa using hmem.2
        by_cases ha : t0.approved = true
        · rw [if_pos ha] at ht'
          have : t0 = t := by simpa using ht'
          subst this
          exact ⟨hmem.1, hph, ha⟩
        · rw [if_neg ha] at ht'
          simp at ht'
  · intro hall
    rw [hstep]
    cases hf : table.filter (fun r => r.phone == phone) with
    | nil => rfl
    | cons t0 rest =>
        have hm : t0 ∈ table.filter (fun r => r.phone == phone) := by
          rw [hf]; exact List.mem_cons_self t0 rest
        have hmem := List.mem_filter.mp hm
        have hph : t0.phone = phone := by simpa using hmem.2
        have ha := hall t0 hmem.1 hph
        show (if t0.approved = true then Except.ok (some t0)
            else Except.ok (none : Option Tenant)) = Except.ok none
        rw [if_neg (by simp [ha])]

/-- Witness for C1 at a concrete whitelist: the single row matches the phone
but is unapproved, so `checkPhone` returns null. -/
theorem checkPhone_whitelist_approved_witness :
    checkPhone [⟨"t1", "Ann", "+71234567890".toList, false⟩]
      ("+71234567890".toList) = .ok none := by
  exact (checkPhone_whitelist_approved
    [⟨"t1", "Ann", "+71234567890".toList, false⟩]
    ("+71234567890".toList) (by decide)).2 (by decide)

/-- C9: `formatPhoneNumber` throws exactly when the input's digits, a leading
eight replaced by seven, do not number eleven; otherwise it returns a plus
sign followed by those eleven digits, and `validatePhoneNumber` accepts that
result exactly when the normalised digits begin with seven. -/
theorem formatPhoneNumber_validate (phone : List Char) :
    ((∃ e, formatPhoneNumber phone = .error e) ↔
        (normalizePhone phone).length ≠ 11) ∧
    (∀ r, formatPhoneNumber phone = .ok r →
        r = '+' :: normalizePhone phone ∧
        (validatePhoneNumber r = true ↔
            ∃ t, normalizePhone phone = '7' :: t)) := by
  constructor
  · by_cases h : (normalizePhone phone).length = 11 <;>
      simp [formatPhoneNumber, h]
  · intro r hr
    have hlen : (normalizePhone phone).length = 11 := by
      by_contra h
      simp [formatPhoneNumber, h] at hr
    have hrval : r = '+' :: normalizePhone phone := by
      simp [formatPhoneNumber, hlen] at hr
      exact hr.symm
    refine ⟨hrval, ?_⟩
    obtain ⟨c2, rest, hn⟩ : ∃ c2 rest, normalizePhone phone = c2 :: rest := by
      cases hcase : normalizePhone phone with
      | nil => rw [hcase] at hlen; simp at hlen
      | cons a l => exact ⟨a, l, rfl⟩
    have hdig := normalizePhone_all_isDigit phone
    rw [hn] at hdig hlen
    have hrest : rest.length = 10 := by simpa using hlen
    have htrim : trimChars ('+' :: c2 :: rest) = '+' :: c2 :: rest := by
      apply trimChars_eq_self
      intro c hc
      cases hc with
      | head => decide
      | tail _ hmem => exact isDigit_not_whitespace c (hdig c hmem)
    have hval : validatePhoneNumber ('+' :: c2 :: rest) =
        (('+' : Char) == '+' && c2 == '7' && rest.length == 10 &&
          rest.all Char.isDigit) := by
      unfold validatePhoneNumber
      rw [htrim]
    have hall : rest.all Char.isDigit = true :=
      List.all_eq_true.mpr (fun c hc => hdig c (List.mem_cons_of_mem _ hc))
    rw [hrval, hn, hval]
    simp [hrest, hall]

/-- Witness for C9 at a concrete raw phone string. -/
theorem formatPhoneNumber_validate_witness :
    formatPhoneNumber ("8 (912) 345-67-89".toList) =
      .ok ("+79123456789".toList) ∧
    validatePhoneNumber ("+79123456789".toList) = true := by
  refine ⟨by rfl, ?_⟩
  have h := (formatPhoneNumber_validate ("8 (912) 345-67-89".toList)).2
    ("+79123456789".toList) (by rfl)
  exact h.2.mpr ⟨"9123456789".toList, by rfl⟩

/-- The inner tolerance check of the hit test, stated propositionally. -/
theorem hitsPoint_eq_true_iff (x y : Rat) (p : Pavilion) :
    hitsPoint x y p = true ↔
      ∃ c, p.coordinates = some c ∧
        |c.x.getD 0 - x| < 5 ∧ |c.y.getD 0 - y| < 5 := by
  unfold hitsPoint
  cases hc : p.coordinates with
  | none => simp
  | some c => simp [tolerance]

/-- C2 counterexample: two pavilions both inside the tolerance of the click
at the origin; the scan returns the farther one, and reversing the list
changes the answer, so the lookup is neither nearest-point nor
order-independent. -/
theorem findPavilionAtPoint_not_nearest :
    findPavilionAtPoint
        [⟨"pav-a", "t", "A", some ⟨some 4, some 0⟩, none, ""⟩,
         ⟨"pav-b", "t", "B", some ⟨some 0, some 0⟩, none, ""⟩] 0 0 =
      some ⟨"pav-a", "t", "A", some ⟨some 4, some 0⟩, none, ""⟩ ∧
    findPavilionAtPoint
        [⟨"pav-b", "t", "B", some ⟨some 0, some 0⟩, none, ""⟩,
         ⟨"pav-a", "t", "A", some ⟨some 4, some 0⟩, none, ""⟩] 0 0 =
      some ⟨"pav-b", "t", "B", some ⟨some 0, some 0⟩, none, ""⟩ ∧
    (⟨"pav-a", "t", "A", some ⟨some 4, some 0⟩, none, ""⟩ : Pavilion) ≠
      ⟨"pav-b", "t", "B", some ⟨some 0, some 0⟩, none, ""⟩ := by
  refine ⟨?_, ?_, ?_⟩
  · norm_num [findPavilionAtPoint, hitsPoint, List.find?, tolerance]
  · norm_num [findPavilionAtPoint, hitsPoint, List.find?, tolerance]
  · intro h
    simp at h

/-- C2 amended: the hit test is a first-match linear scan, not a
nearest-point lookup: it returns the first pavilion in list order whose
stored coordinates lie within the fixed tolerance of the click point. -/
theorem findPavilionAtPoint_first_match (ps : List Pavilion) (x y : Rat)
    (p : Pavilion) :
    findPavilionAtPoint ps x y = some p ↔
      ∃ l1 l2, ps = l1 ++ p :: l2 ∧
        (∃ c, p.coordinates = some c ∧
          |c.x.getD 0 - x| < 5 ∧ |c.y.getD 0 - y| < 5) ∧
        ∀ q ∈ l1, ¬∃ c, q.coordinates = some c ∧
          |c.x.getD 0 - x| < 5 ∧ |c.y.getD 0 - y| < 5 := by
  constructor
  · intro h
    induction ps with
    | nil => simp [findPavilionAtPoint] at h
    | cons a l ih =>
        rw [findPavilionAtPoint, List.find?_cons] at h
        by_cases ha : hitsPoint x y a = true
        · rw [ha] at h
          simp at h
          subst h
          exact ⟨[], l, rfl, (hitsPoint_eq_true_iff x y _).mp ha, by simp⟩
        · have ha' : hitsPoint x y a = false := by
            cases hb : hitsPoint x y a with
            | true => exact absurd hb ha
            | false => rfl
          rw [ha'] at h
          obtain ⟨l1, l2, hsplit, hhit, hmiss⟩ := ih h
          refine ⟨a :: l1, l2, by rw [hsplit]; rfl, hhit, ?_⟩
          intro q hq
          cases hq with
          | head =>
              intro hex
              exact ha ((hitsPoint_eq_true_iff x y _).mpr hex)
          | tail _ hmem => exact hmiss q hmem
  · rintro ⟨l1, l2, hsplit, hhit, hmiss⟩
    subst hsplit
    induction l1 with
    | nil =>
        rw [findPavilionAtPoint]
        simp [List.find?_cons, (hitsPoint_eq_true_iff x y p).mpr hhit]
    | cons a l1 ih =>
        rw [findPavilionAtPoint, List.cons_append, List.find?_cons]
        have ha : hitsPoint x y a = false := by
          cases hb : hitsPoint x y a with
          | true =>
              exact absurd ((hitsPoint_eq_true_iff x y a).mp hb)
                (hmiss a (List.mem_cons_self a l1))
          | false => rfl
        rw [ha]
        exact ih (fun q hq => hmiss q (List.mem_cons_of_mem a hq))

/-- C4: the hit test returns null exactly when no pavilion's stored
coordinates are strictly within five percent of the click point on both
axes; the tolerance is the constant five. -/
theorem findPavilionAtPoint_none_iff (ps : List Pavilion) (x y : Rat) :
    tolerance = 5 ∧
    (findPavilionAtPoint ps x y = none ↔
      ∀ p ∈ ps, ¬∃ c, p.coordinates = some c ∧
        |c.x.getD 0 - x| < 5 ∧ |c.y.getD 0 - y| < 5) := by
  refine ⟨rfl, ?_⟩
  rw [findPavilionAtPoint, List.find?_eq_none]
  constructor
  · intro h p hp hex
    exact h p hp ((hitsPoint_eq_true_iff x y p).mpr hex)
  · intro h p hp hb
    exact h p hp ((hitsPoint_eq_true_iff x y p).mp hb)

/-- C3: `updatePavilion` and `deletePavilion` fail without touching the
database, the in-memory list, or the cache whenever no tenant is logged in,
the pavilion cannot be found, or it belongs to a different tenant; and a
REST write is issued only when a logged-in tenant owns an existing
pavilion. -/
theorem pavilion_owner_only_writes (auth : Option Tenant) (now id : String)
    (u : UpdateData) (st : DataSt) :
    ((auth = none ∨ getPavilionById st id = none ∨
        (∃ t p, auth = some t ∧ getPavilionById st id = some p ∧
          p.tenant_id ≠ t.id)) →
      (∃ e, (updatePavilion auth now id u st).1 = .error e) ∧
      (updatePavilion auth now id u st).2.1 = st ∧
      (updatePavilion auth now id u st).2.2 = false ∧
      (∃ e, (deletePavilion auth id st).1 = .error e) ∧
      (deletePavilion auth id st).2.1 = st ∧
      (deletePavilion auth id st).2.2 = false) ∧
    ((updatePavilion auth now id u st).2.2 = true →
      ∃ t p, auth = some t ∧ getPavilionById st id = some p ∧
        p.tenant_id = t.id) ∧
    ((deletePavilion auth id st).2.2 = true →
      ∃ t p, auth = some t ∧ getPavilionById st id = some p ∧
        p.tenant_id = t.id) := by
  cases auth with
  | none =>
      refine ⟨fun _ => ?_, ?_, ?_⟩
      · exact ⟨⟨_, rfl⟩, rfl, rfl, ⟨_, rfl⟩, rfl, rfl⟩
      · intro h; exact absurd h (by simp [updatePavilion])
      · intro h; exact absurd h (by simp [deletePavilion])
  | some t =>
      cases hp : getPavilionById st id with
      | none =>
          refine ⟨fun _ => ?_, ?_, ?_⟩
          · exact ⟨⟨"pavilion not found", by simp [updatePavilion, hp]⟩,
              by simp [updatePavilion, hp],
              by simp [updatePavilion, hp],
              ⟨"pavilion not found", by simp [deletePavilion, hp]⟩,
              by simp [deletePavilion, hp],
              by simp [deletePavilion, hp]⟩
          · intro h; exact absurd h (by simp [updatePavilion, hp])
          · intro h; exact absurd h (by simp [deletePavilion, hp])
      | some p =>
          by_cases hown : p.tenant_id = t.id
          · refine ⟨fun hbad => ?_, ?_, ?_⟩
            · rcases hbad with h | h | ⟨t', p', ht', hp', hne⟩
              · exact absurd h (by simp)
              · exact absurd h (by simp)
              · have het : t' = t := by simpa using ht'.symm
                subst het
                have hep : p' = p := by simpa using hp'.symm
                subst hep
                exact absurd hown hne
            · intro _; exact ⟨t, p, rfl, rfl, hown⟩
            · intro _; exact ⟨t, p, rfl, rfl, hown⟩
          · refine ⟨fun _ => ?_, ?_, ?_⟩
            · exact ⟨⟨"no rights to edit this pavilion",
                by simp [updatePavilion, hp, hown]⟩,
                by simp [updatePavilion, hp, hown],
                by simp [updatePavilion, hp, hown],
                ⟨"no rights to delete this pavilion",
                by simp [deletePavilion, hp, hown]⟩,
                by simp [deletePavilion, hp, hown],
                by simp [deletePavilion, hp, hown]⟩
            · intro h
              exact absurd h (by simp [updatePavilion, hp, hown])
            · intro h
              exact absurd h (by simp [deletePavilion, hp, hown])

/-- Witness for C3: with nobody logged in, both operations fail on an empty
state and issue no write. -/
theorem pavilion_owner_only_writes_witness :
    (∃ e, (updatePavilion none "now" "p1" ⟨none, none, none⟩
        ⟨[], [], []⟩).1 = .error e) ∧
    (updatePavilion none "now" "p1" ⟨none, none, none⟩
        ⟨[], [], []⟩).2.2 = false ∧
    (deletePavilion none "p1" ⟨[], [], []⟩).2.2 = false := by
  have h := (pavilion_owner_only_writes none "now" "p1" ⟨none, none, none⟩
    ⟨[], [], []⟩).1 (Or.inl rfl)
  exact ⟨h.1, h.2.2.1, h.2.2.2.2.2⟩

theorem applyUpdate_id (p : Pavilion) (u : UpdateData) (now : String) :
    (applyUpdate p u now).id = p.id := rfl

theorem filter_map_applyUpdate (db : List Pavilion) (id : String)
    (u : UpdateData) (now : String) :
    (db.map (fun p => if p.id == id then applyUpdate p u now else p)).filter
        (fun p => p.id == id) =
      (db.filter (fun p => p.id == id)).map
        (fun p => applyUpdate p u now) := by
  induction db with
  | nil => rfl
  | cons a l ih =>
      by_cases ha : (a.id == id) = true
      · simp only [List.map_cons, List.filter_cons, if_pos ha,
          applyUpdate_id, ha, if_true, ih]
      · have ha' : (a.id == id) = false := by
          cases hb : (a.id == id) with
          | true => exact absurd hb ha
          | false => rfl
        simp only [List.map_cons, List.filter_cons, ha', Bool.false_eq_true,
          if_false, if_neg ha, ih]

/-- When `updatePavilion` succeeds, the returned row is the first table row
with the requested id, patched by the given body and timestamp. -/
theorem updatePavilion_ok_shape (t : Tenant) (now id : String)
    (u : UpdateData) (st : DataSt) (pav : Pavilion)
    (hpav : getPavilionById st id = some pav)
    (hown : pav.tenant_id = t.id) (p' : Pavilion)
    (h : (updatePavilion (some t) now id u st).1 = .ok p') :
    ∃ q, (st.db.filter (fun r => r.id == id)).head? = some q ∧
      p' = applyUpdate q u now := by
  have hbody : updatePavilion (some t) now id u st =
      match ((st.db.map (fun p => if p.id == id then applyUpdate p u now
          else p)).filter (fun p => p.id == id)).head? with
      | some p0 =>
          (.ok p0,
           { db := st.db.map (fun p => if p.id == id then applyUpdate p u now
               else p),
             pavilions := replaceFirst st.pavilions id p0,
             cache := clearCacheData "pavilions" st.cache },
           true)
      | none => (.error "update failed",
          { st with db := st.db.map (fun p => if p.id == id then
              applyUpdate p u now else p) }, true) := by
    simp [updatePavilion, hpav, hown]
  rw [hbody, filter_map_applyUpdate] at h
  cases hf : st.db.filter (fun r => r.id == id) with
  | nil => rw [hf] at h; simp at h
  | cons q rest =>
      rw [hf] at h
      simp only [List.map_cons, List.head?_cons] at h
      refine ⟨q, rfl, ?_⟩
      simpa using h.symm

/-- C8: discounts live only in the embedded array on the pavilion row:
`addDiscount` appends exactly one entry to that array and writes the row
back through `updatePavilion` leaving every other content field of the
stored row unchanged, and `removeDiscount` drops exactly the entries with
the given id, preserving the order of the rest. -/
theorem discounts_embedded_array (auth : Option Tenant)
    (now newId pid did payload : String) (st : DataSt) (pav : Pavilion)
    (hpav : getPavilionById st pid = some pav) :
    (∀ p', (addDiscount auth now newId pid payload st).1 = .ok p' →
      p'.discounts = some (pav.discounts.getD [] ++ [⟨newId, payload, now⟩]) ∧
      p'.updated_at = now ∧
      ∃ q, (st.db.filter (fun r => r.id == pid)).head? = some q ∧
        p'.id = q.id ∧ p'.tenant_id = q.tenant_id ∧ p'.name = q.name ∧
        p'.coordinates = q.coordinates) ∧
    (∀ p', (removeDiscount auth now pid did st).1 = .ok p' →
      p'.discounts =
        some ((pav.discounts.getD []).filter (fun d => !(d.id == did))) ∧
      (∀ d, d ∈ (pav.discounts.getD []).filter (fun d => !(d.id == did)) ↔
        d ∈ pav.discounts.getD [] ∧ d.id ≠ did) ∧
      ((pav.discounts.getD []).filter
        (fun d => !(d.id == did))).Sublist (pav.discounts.getD [])) := by
  constructor
  · intro p' hp'
    cases auth with
    | none => simp [addDiscount] at hp'
    | some t =>
        by_cases hown : pav.tenant_id = t.id
        · have hred : addDiscount (some t) now newId pid payload st =
              updatePavilion (some t) now pid
                ⟨none, none,
                 some (pav.discounts.getD [] ++ [⟨newId, payload, now⟩])⟩
                st := by
            simp [addDiscount, hpav, hown]
          rw [hred] at hp'
          obtain ⟨q, hq, hshape⟩ :=
            updatePavilion_ok_shape t now pid _ st pav hpav hown p' hp'
          subst hshape
          exact ⟨rfl, rfl, q, hq, rfl, rfl, rfl, rfl⟩
        · simp [addDiscount, hpav, hown] at hp'
  · intro p' hp'
    cases auth with
    | none => simp [removeDiscount] at hp'
    | some t =>
        by_cases hown : pav.tenant_id = t.id
        · have hred : removeDiscount (some t) now pid did st =
              updatePavilion (some t) now pid
                ⟨none, none,
                 some ((pav.discounts.getD []).filter
                   (fun d => !(d.id == did)))⟩ st := by
            simp [removeDiscount, hpav, hown]
          rw [hred] at hp'
          obtain ⟨q, hq, hshape⟩ :=
            updatePavilion_ok_shape t now pid _ st pav hpav hown p' hp'
          subst hshape
          refine ⟨rfl, ?_, List.filter_sublist _⟩
          intro d
          constructor
          · intro hd
            have hm := List.mem_filter.mp hd
            refine ⟨hm.1, ?_⟩
            intro he
            rw [he] at hm
            simp at hm
          · rintro ⟨hmem, hne⟩
            exact List.mem_filter.mpr ⟨hmem, by simp [hne]⟩
        · simp [removeDiscount, hpav, hown] at hp'

/-- Witness for C8: adding a discount to a concretely owned pavilion appends
exactly the new entry to the embedded array. -/
theorem discounts_embedded_array_witness :
    (addDiscount (some ⟨"t1", "Ann", "+71234567890".toList, true⟩) "now1"
        "d2" "p1" "pct"
        ⟨[⟨"p1", "t1", "Shop", none, some [⟨"d1", "old", "c0"⟩], "u0"⟩],
         [⟨"p1", "t1", "Shop", none, some [⟨"d1", "old", "c0"⟩], "u0"⟩],
         []⟩).1 =
      .ok ⟨"p1", "t1", "Shop", none,
        some [⟨"d1", "old", "c0"⟩, ⟨"d2", "pct", "now1"⟩], "now1"⟩ ∧
    (⟨"p1", "t1", "Shop", none,
        some [⟨"d1", "old", "c0"⟩, ⟨"d2", "pct", "now1"⟩], "now1"⟩ :
        Pavilion).discounts =
      some ([⟨"d1", "old", "c0"⟩] ++ [(⟨"d2", "pct", "now1"⟩ : Discount)]) := by
  have h := (discounts_embedded_array
    (some ⟨"t1", "Ann", "+71234567890".toList, true⟩) "now1" "d2" "p1" "dx"
    "pct"
    ⟨[⟨"p1", "t1", "Shop", none, some [⟨"d1", "old", "c0"⟩], "u0"⟩],
     [⟨"p1", "t1", "Shop", none, some [⟨"d1", "old", "c0"⟩], "u0"⟩], []⟩
    ⟨"p1", "t1", "Shop", none, some [⟨"d1", "old", "c0"⟩], "u0"⟩ (by rfl)).1
    ⟨"p1", "t1", "Shop", none,
      some [⟨"d1", "old", "c0"⟩, ⟨"d2", "pct", "now1"⟩], "now1"⟩ (by rfl)
  exact ⟨by rfl, h.1⟩

theorem lookupItem_setItem_self {α : Type} (s : List (String × α))
    (k : String) (v : α) : lookupItem (setItem s k v) k = some v := by
  simp [lookupItem, setItem, List.find?_cons]

theorem lookupItem_removeItem_self {α : Type} (s : List (String × α))
    (k : String) : lookupItem (removeItem s k) k = none := by
  rw [lookupItem]
  rw [List.find?_eq_none.mpr]
  · rfl
  · intro x hx
    have hker := (List.mem_filter.mp hx).2
    simpa using hker

/-- C5: the localStorage read cache has the fixed one-hour TTL: a value
written at `tw` is still returned by `getCacheData` strictly less than
`CACHE_TIMEOUT` milliseconds later, and once strictly more than
`CACHE_TIMEOUT` milliseconds have elapsed the read returns null and removes
the entry. -/
theorem cache_ttl_one_hour {V : Type} (key : String) (v : V) (tw tr : Int)
    (s : Store V) (hw : 0 < tw) :
    CACHE_TIMEOUT = 60 * 60 * 1000 ∧
    (tr - tw < CACHE_TIMEOUT →
      getCacheData tr key (setCacheData key v tw s) =
        (some v, setCacheData key v tw s)) ∧
    (tr - tw > CACHE_TIMEOUT →
      (getCacheData tr key (setCacheData key v tw s)).1 = none ∧
      lookupItem (getCacheData tr key (setCacheData key v tw s)).2
        (cachePrefixStr ++ key) = none) := by
  have hlook : lookupItem (setCacheData key v tw s) (cachePrefixStr ++ key) =
      some ⟨v, tw⟩ := lookupItem_setItem_self _ _ _
  have hbody : getCacheData tr key (setCacheData key v tw s) =
      if tw ≠ 0 ∧ tr - tw > CACHE_TIMEOUT then
        (none, removeItem (setCacheData key v tw s) (cachePrefixStr ++ key))
      else (some v, setCacheData key v tw s) := by
    rw [getCacheData]
    rw [hlook]
  refine ⟨rfl, ?_, ?_⟩
  · intro hfresh
    rw [hbody, if_neg]
    rintro ⟨_, hgt⟩
    omega
  · intro hstale
    rw [hbody, if_pos ⟨by omega, hstale⟩]
    exact ⟨rfl, lookupItem_removeItem_self _ _⟩

/-- Witness for C5: a value written at time 1 is returned at time 2, and at
a time past the timeout the entry is gone. -/
theorem cache_ttl_one_hour_witness :
    getCacheData 2 "k" (setCacheData "k" (7 : Nat) 1 []) =
      (some 7, setCacheData "k" (7 : Nat) 1 []) ∧
    (getCacheData 3600002 "k" (setCacheData "k" (7 : Nat) 1 [])).1 = none := by
  refine ⟨(cache_ttl_one_hour "k" 7 1 2 [] (by decide)).2.1 (by decide), ?_⟩
  exact ((cache_ttl_one_hour "k" 7 1 3600002 [] (by decide)).2.2
    (by decide)).1

/-- C10: `getAllPavilions` swallows failures: its result is always a value;
with a fresh cache it returns the cached list without touching the network,
and when the network request fails on a cache miss it returns the current
in-memory list. -/
theorem getAllPavilions_no_throw (now : Int)
    (net : Except String (List Pavilion)) (st : DataSt) :
    (∃ v, (getAllPavilions now net st).1 = .ok v) ∧
    (∀ cached cache',
      getCacheData now "pavilions" st.cache = (some cached, cache') →
      getAllPavilions now net st =
        (.ok cached, { st with pavilions := cached, cache := cache' },
         false)) ∧
    (∀ e, net = .error e →
      (getCacheData now "pavilions" st.cache).1 = none →
      (getAllPavilions now net st).1 = .ok st.pavilions ∧
      (getAllPavilions now net st).2.1.pavilions = st.pavilions) := by
  rcases hc : getCacheData now "pavilions" st.cache with ⟨o, c'⟩
  cases o with
  | some cached =>
      refine ⟨⟨cached, by simp [getAllPavilions, hc]⟩, ?_, ?_⟩
      · intro cached2 cache2 h2
        have h1 : cached = cached2 := by simpa using congrArg Prod.fst h2
        have h2' : c' = cache2 := by simpa using congrArg Prod.snd h2
        subst h1
        subst h2'
        simp [getAllPavilions, hc]
      · intro e _ hmiss
        simp at hmiss
  | none =>
      refine ⟨?_, ?_, ?_⟩
      · cases net with
        | ok resp => exact ⟨resp, by simp [getAllPavilions, hc]⟩
        | error e => exact ⟨st.pavilions, by simp [getAllPavilions, hc]⟩
      · intro cached2 cache2 h2
        simp at h2
      · intro e hne _
        subst hne
        simp [getAllPavilions, hc]

/-- Witness for C10: on an empty state with a failing network, the call
still returns the (empty) in-memory list. -/
theorem getAllPavilions_no_throw_witness :
    (getAllPavilions 0 (.error "offline") ⟨[], [], []⟩).1 = .ok [] := by
  exact ((getAllPavilions_no_throw 0 (.error "offline") ⟨[], [], []⟩).2.2
    "offline" rfl (by rfl)).1

/-- C6: the fetch listener serves static assets cache-first: a GET request
whose path ends in a cacheable extension is routed to the cache-first
strategy; a cache hit is answered from the cache without contacting the
network; only a miss consults the network, and the fetched response is
stored in the cache exactly when its status is 200. -/
theorem sw_static_assets_cache_first (req : Request) (c : SWCache)
    (net : Except String Response) (hm : req.method = "GET")
    (hs : isStaticAsset req = true) :
    chooseStrategy req = .cacheFirst ∧
    (∀ r, cacheMatch c req = some r →
      cacheFirstStrategy req c net = (r, c, false)) ∧
    (cacheMatch c req = none →
      (cacheFirstStrategy req c net).2.2 = true ∧
      (∀ nr, net = .ok nr → nr.status = 200 →
        (cacheFirstStrategy req c net).2.1 = cachePut c req nr) ∧
      (∀ nr, net = .ok nr → nr.status ≠ 200 →
        (cacheFirstStrategy req c net).2.1 = c) ∧
      (∀ e, net = .error e → (cacheFirstStrategy req c net).2.1 = c)) := by
  refine ⟨by simp [chooseStrategy, hm, hs], ?_, ?_⟩
  · intro r hr
    simp [cacheFirstStrategy, hr]
  · intro hnone
    cases net with
    | ok nr =>
        by_cases h200 : nr.status = 200
        · refine ⟨by simp [cacheFirstStrategy, hnone, h200], ?_, ?_, ?_⟩
          · intro nr2 h2 _
            have : nr2 = nr := by simpa using h2.symm
            subst this
            simp [cacheFirstStrategy, hnone, h200]
          · intro nr2 h2 hne
            have : nr2 = nr := by simpa using h2.symm
            subst this
            exact absurd h200 hne
          · intro e he
            simp at he
        · refine ⟨by simp [cacheFirstStrategy, hnone, h200], ?_, ?_, ?_⟩
          · intro nr2 h2 h2eq
            have : nr2 = nr := by simpa using h2.symm
            subst this
            exact absurd h2eq h200
          · intro nr2 h2 _
            have : nr2 = nr := by simpa using h2.symm
            subst this
            simp [cacheFirstStrategy, hnone, h200]
          · intro e he
            simp at he
    | error e =>
        refine ⟨by simp [cacheFirstStrategy, hnone], ?_, ?_, ?_⟩
        · intro nr2 h2 _
          simp at h2
        · intro nr2 h2 _
          simp at h2
        · intro e2 _
          simp [cacheFirstStrategy, hnone]

/-- Witness for C6 at a concrete cached script request: the cached response
is served and the network is not contacted. -/
theorem sw_static_assets_cache_first_witness :
    cacheFirstStrategy ⟨"GET", "/js/auth.js"⟩
        [(⟨"GET", "/js/auth.js"⟩, ⟨200, "cached body"⟩)] (.error "offline") =
      (⟨200, "cached body"⟩,
       [(⟨"GET", "/js/auth.js"⟩, ⟨200, "cached body"⟩)], false) := by
  exact (sw_static_assets_cache_first ⟨"GET", "/js/auth.js"⟩
    [(⟨"GET", "/js/auth.js"⟩, ⟨200, "cached body"⟩)] (.error "offline")
    rfl (by rfl)).2.1 ⟨200, "cached body"⟩ (by rfl)

/-- C7: on activation the service worker deletes exactly the caches whose
names start with the `apra-shka-` prefix and differ from the current cache
name; every other cache, the current one included, survives. -/
theorem sw_activate_version_busting (cacheNames : List String) (n : String)
    (hn : n ∈ cacheNames) :
    (n ∈ activateDeleted cacheNames ↔
      strStartsWith n "apra-shka-" = true ∧ n ≠ CACHE_NAME) ∧
    (n ∈ activateKept cacheNames ↔
      ¬(strStartsWith n "apra-shka-" = true ∧ n ≠ CACHE_NAME)) := by
  have hstale : isCacheStale n = true ↔
      (strStartsWith n "apra-shka-" = true ∧ n ≠ CACHE_NAME) := by
    simp [isCacheStale]
  constructor
  · rw [activateDeleted, List.mem_filter]
    simp [hn, hstale]
  · rw [activateKept, List.mem_filter]
    simp only [hn, true_and]
    rw [← hstale]
    simp

/-- Witness for C7 on a concrete cache listing: the stale versioned cache is
deleted while the current cache and a foreign cache are kept. -/
theorem sw_activate_version_busting_witness :
    "apra-shka-v0" ∈
      activateDeleted ["apra-shka-v0", "apra-shka-v1", "other-cache"] ∧
    "apra-shka-v1" ∈
      activateKept ["apra-shka-v0", "apra-shka-v1", "other-cache"] ∧
    "other-cache" ∈
      activateKept ["apra-shka-v0", "apra-shka-v1", "other-cache"] := by
  refine ⟨?_, ?_, ?_⟩
  · exact (sw_activate_version_busting _ "apra-shka-v0"
      (by simp)).1.mpr ⟨by rfl, by simp [CACHE_NAME, CACHE_VERSION]⟩
  · exact (sw_activate_version_busting _ "apra-shka-v1"
      (by simp)).2.mpr (by simp [CACHE_NAME, CACHE_VERSION])
  · exact (sw_activate_version_busting _ "other-cache"
      (by simp)).2.mpr (by decide)

end Apraxin
